import Mathlib

/-!
Verification development for the memorizer storage core.

This file gives a shallow embedding of the memory storage service
(`src/services/storage.py`), the embedding service
(`src/services/embeddings.py`), the data model (`src/models.py`) and the
relevant configuration defaults (`src/config.py`), and proves properties of
the embedded definitions.

Modelling conventions:
* Python `float` is modelled as `ℚ` (exact arithmetic; the service performs
  only +, *, -, comparisons on scores).
* `uuid.UUID` is opaque and modelled as `Nat`; the `str(id)`/`UUID(s)` codec
  used at the ChromaDB boundary is an inverse pair and is modelled as the
  identity.
* `datetime` is modelled as a `Nat` tick; `isoformat`/`fromisoformat` form an
  inverse pair and are modelled as the identity.  `datetime.utcnow()` is
  modelled by a clock field `now` in the storage state; each operation that
  reads the clock advances it, so successive reads are strictly increasing
  (the real clock is weakly increasing; strict increase corresponds to the
  clock having advanced between the two reads).
* A ChromaDB collection is a finite association list from id to the stored
  metadata record and document; `add` overwrites an existing id (last write
  wins, as the specification documents), `get` looks the id up, `delete` of a
  missing id is a no-op that does not raise.  Embedding vectors are written
  to the collections but never read back by any modelled operation, so the
  model does not store them.
* Python strings that are split/stripped (the tag codec) are modelled as
  `List Char`; `str.strip` is modelled over the ASCII whitespace characters.
-/

/-- Configuration values from `src/config.py` (`Settings`), restricted to the
fields the storage and embedding services read.  The values are
environment-overridable in the source, so operations are parametrised by a
`Settings` record; `defaultSettings` holds the defaults from `config.py`. -/
structure Settings where
  embedding_dimension : Nat
  embedding_dimension_secondary : Nat
  use_dual_embeddings : Bool
  embedding_weight_primary : ℚ
  embedding_weight_secondary : ℚ
  similarity_threshold : ℚ
  fallback_threshold : ℚ
  tag_boost : ℚ

/-- The default values from `src/config.py`: 384 / 384 / True / 0.4 / 0.6 /
0.7 / 0.6 / 0.05. -/
def defaultSettings : Settings :=
  { embedding_dimension := 384
    embedding_dimension_secondary := 384
    use_dual_embeddings := true
    embedding_weight_primary := 2/5
    embedding_weight_secondary := 3/5
    similarity_threshold := 7/10
    fallback_threshold := 3/5
    tag_boost := 1/20 }

/-! ## Python string primitives used by the tag codec -/

/-- ASCII whitespace, as stripped by Python `str.strip()` (restricted to the
ASCII range; the tags in all claims are ASCII). -/
def isPySpace (c : Char) : Bool :=
  c = ' ' ∨ c = '\t' ∨ c = '\n' ∨ c = '\x0d' ∨ c = '\x0b' ∨ c = '\x0c'

/-- Python `str.strip()`: drop leading and trailing whitespace. -/
def pyStrip (s : List Char) : List Char :=
  ((s.dropWhile isPySpace).reverse.dropWhile isPySpace).reverse

/-- Python `s.split(',')` (auxiliary accumulator form). -/
def splitCommaAux : List Char → List Char → List (List Char)
  | [], acc => [acc.reverse]
  | c :: cs, acc =>
    if c = ',' then acc.reverse :: splitCommaAux cs [] else splitCommaAux cs (c :: acc)

/-- Python `s.split(',')`: split on every comma; `"".split(',') == ['']`. -/
def splitComma (s : List Char) : List (List Char) := splitCommaAux s []

/-- Python `','.join(tags)`. -/
def joinComma : List (List Char) → List Char
  | [] => []
  | [t] => t
  | t :: ts => t ++ ',' :: joinComma ts

/-- Serialization of the tag list for ChromaDB metadata
(`storage.py` lines 106-110): `','.join(tags)` when the list is nonempty,
`''` otherwise — which coincides with `','.join` on the empty list. -/
def serializeTags (tags : List (List Char)) : List Char := joinComma tags

/-- Parsing tags back from the stored comma-joined string (`storage.py`
lines 155-157, also 340-342 and 310):
`[tag.strip() for tag in s.split(',') if tag.strip()]`. -/
def parseTags (s : List Char) : List (List Char) :=
  ((splitComma s).map pyStrip).filter (fun t => !t.isEmpty)

/-! ## JSON payloads and `json.dumps(content, indent=2)` -/

/-- A JSON value, modelling the `dict[str, Any]` content payload. -/
inductive Json where
  | str : String → Json
  | num : Int → Json
  | bool : Bool → Json
  | null : Json
  | arr : List Json → Json
  | obj : List (String × Json) → Json

/-- The content payload of a memory: a Python `dict[str, Any]` in insertion
order. -/
abbrev Content := List (String × Json)

/-- JSON string escaping for the characters relevant here. -/
def escapeJsonChar (c : Char) : String :=
  if c = '"' then "\\\""
  else if c = '\\' then "\\\\"
  else if c = '\n' then "\\n"
  else if c = '\t' then "\\t"
  else if c = '\x0d' then "\\r"
  else String.singleton c

/-- JSON string escaping. -/
def escapeJson (s : String) : String := String.join (s.toList.map escapeJsonChar)

/-- `n` spaces (for `indent=2` pretty-printing). -/
def spaces (n : Nat) : String := String.mk (List.replicate n ' ')

/-- `json.dumps(v, indent=2)` at nesting level `lvl`: each item of a
nonempty array/object on its own line, indented two spaces per level, with
`", "`-free separators `(',', ': ')` as Python uses with `indent`. -/
def dumpsJson (lvl : Nat) (j : Json) : String :=
  match j with
  | .str s => "\"" ++ escapeJson s ++ "\""
  | .num n => toString n
  | .bool b => if b then "true" else "false"
  | .null => "null"
  | .arr [] => "[]"
  | .arr (x :: xs) =>
    "[\n"
      ++ String.intercalate ",\n"
        ((x :: xs).attach.map (fun y => spaces (2 * (lvl + 1)) ++ dumpsJson (lvl + 1) y.1))
      ++ "\n" ++ spaces (2 * lvl) ++ "]"
  | .obj [] => "\x7b\x7d"
  | .obj (p :: ps) =>
    "\x7b\n"
      ++ String.intercalate ",\n"
        ((p :: ps).attach.map (fun q =>
          spaces (2 * (lvl + 1)) ++ "\"" ++ escapeJson q.1.1 ++ "\": "
            ++ dumpsJson (lvl + 1) q.1.2))
      ++ "\n" ++ spaces (2 * lvl) ++ "\x7d"
termination_by sizeOf j
decreasing_by
  · have := List.sizeOf_lt_of_mem y.2
    simp only [Json.arr.sizeOf_spec]
    omega
  · have h1 := List.sizeOf_lt_of_mem q.2
    have h2 : sizeOf q.1.2 < sizeOf q.1 := by
      obtain ⟨a, b⟩ := q.1
      simp
    simp only [Json.obj.sizeOf_spec]
    omega

/-- `StorageService._extract_text` (`storage.py` lines 58-63): the content is
a `dict`, so the result is `json.dumps(content, indent=2)`.  (The
`str(content)` branch is unreachable: `Memory.content` is typed
`dict[str, Any]`.) -/
def extract_text (content : Content) : String := dumpsJson 0 (.obj content)

/-! ## Data model (`src/models.py`) -/

/-- `RelationshipType`: closed enumeration of typed links. -/
inductive RelationshipType where
  | related_to | example_of | explains | contradicts | depends_on | supersedes
deriving DecidableEq

/-- `MemoryRelationship`: a directed typed edge between two memory ids. -/
structure MemoryRelationship where
  id : Nat
  from_memory_id : Nat
  to_memory_id : Nat
  type : RelationshipType
  created_at : Nat
deriving DecidableEq

/-- `Memory`: the memory entity.  `embedding`/`embedding_metadata` are never
read or written by the storage service (they are excluded from the stored
metadata), so they are omitted from the model. -/
structure Memory where
  id : Nat
  type : String
  content : Content
  text : Option String := none
  source : String
  tags : List (List Char) := []
  confidence : ℚ := 1
  title : Option String := none
  created_at : Nat
  updated_at : Nat
  similarity : Option ℚ := none
  relationships : List MemoryRelationship := []

/-- `MemoryUpdate`: the sparse field map accepted by `update`; a `none` field
is "not provided / null" and is skipped by the update loop. -/
structure MemoryUpdate where
  type : Option String := none
  content : Option Content := none
  source : Option String := none
  tags : Option (List (List Char)) := none
  confidence : Option ℚ := none
  title : Option String := none

/-! ## Stored form (ChromaDB metadata dictionary) -/

/-- The metadata dictionary written by `create` (`storage.py` lines 101-110):
`memory.model_dump` excluding `embedding`, `embedding_metadata`,
`similarity`, `relationships` and `content`, with tags joined to a single
comma-separated string. -/
structure StoredMeta where
  id : Nat
  type : String
  text : Option String
  source : String
  tags : List Char
  confidence : ℚ
  title : Option String
  created_at : Nat
  updated_at : Nat
deriving DecidableEq

/-- One ChromaDB collection entry: metadata dictionary plus the stored
document text. -/
structure StoredEntry where
  meta : StoredMeta
  doc : String
deriving DecidableEq

/-- The state owned by `StorageService`: the two ChromaDB collections
(`memories` with primary/L6 embeddings and `memories_metadata` with
secondary/L12 embeddings), the in-memory relationship dictionary (keyed by
the relationship id, in insertion order), and the model clock. -/
structure StorageState where
  memories : List (Nat × StoredEntry)
  memories_metadata : List (Nat × StoredEntry)
  relationships : List (Nat × MemoryRelationship)
  now : Nat
deriving DecidableEq

/-- A storage state with empty collections and an empty relationship graph. -/
def emptyState (now : Nat) : StorageState :=
  { memories := [], memories_metadata := [], relationships := [], now := now }

/-! ## Association-list primitives for the collections -/

/-- Collection lookup by id (ChromaDB `collection.get(ids=[id])`). -/
def lookupA {α : Type} (l : List (Nat × α)) (k : Nat) : Option α :=
  (l.find? (fun p => p.1 == k)).map (·.2)

/-- Collection `add` with last-write-wins overwrite semantics for an already
present id (as the specification documents for duplicate ids). -/
def insertA {α : Type} (l : List (Nat × α)) (k : Nat) (v : α) : List (Nat × α) :=
  match l with
  | [] => [(k, v)]
  | (k', v') :: r => if k' = k then (k, v) :: r else (k', v') :: insertA r k v

/-- Collection `delete(ids=[id])`: removes the entry when present; a no-op
(raising nothing) when absent. -/
def removeA {α : Type} (l : List (Nat × α)) (k : Nat) : List (Nat × α) :=
  l.filter (fun p => p.1 != k)

/-! ## Embedding service (`src/services/embeddings.py`) -/

/-- The two loaded sentence-transformer models, as opaque deterministic
text-to-vector functions (the numerical internals are outside the core). -/
structure Embedder where
  encode_primary : String → List ℚ
  encode_secondary : String → List ℚ

/-- Python truthiness test `not text or not text.strip()` from
`generate_embedding`/`generate_dual_embeddings`: the text is empty or
whitespace-only. -/
def isBlank (text : String) : Bool := (pyStrip text.toList).isEmpty

/-- `EmbeddingService.generate_embedding` (`embeddings.py` lines 146-168):
an all-zero vector of `settings.embedding_dimension` for blank text,
otherwise the primary model's encoding. -/
def generate_embedding (cfg : Settings) (emb : Embedder) (text : String) : List ℚ :=
  if isBlank text then List.replicate cfg.embedding_dimension 0
  else emb.encode_primary text

/-- `EmbeddingService.generate_dual_embeddings` (`embeddings.py` lines
170-199).  Note that for blank text the zero vector for *both* channels is
built from `settings.embedding_dimension` (the primary dimension), line 184
of the source. -/
def generate_dual_embeddings (cfg : Settings) (emb : Embedder) (text : String) :
    List ℚ × Option (List ℚ) :=
  if isBlank text then
    let zero_vec := List.replicate cfg.embedding_dimension (0 : ℚ)
    (zero_vec, if cfg.use_dual_embeddings then some zero_vec else none)
  else
    (emb.encode_primary text,
      if cfg.use_dual_embeddings then some (emb.encode_secondary text) else none)

/-! ## Record store operations (`src/services/storage.py`) -/

namespace StorageService

/-- `StorageService.get_relationships` (lines 398-403): all edges where the
id is either endpoint, in dictionary (insertion) order. -/
def get_relationships (s : StorageState) (memory_id : Nat) : List MemoryRelationship :=
  (s.relationships.map (·.2)).filter
    (fun rel => rel.from_memory_id == memory_id || rel.to_memory_id == memory_id)

/-- `StorageService.create_relationship` (lines 392-396). -/
def create_relationship (s : StorageState) (rel : MemoryRelationship) :
    StorageState × MemoryRelationship :=
  ({ s with relationships := insertA s.relationships rel.id rel }, rel)

/-- The store-side part of `StorageService.create` (lines 89-129): set
`memory.text` from the extracted content text, build the metadata
dictionary, and add the entry to both collections under the memory's id. -/
def createStore (s : StorageState) (memory : Memory) : StorageState × Memory :=
  let text_content := extract_text memory.content
  let memory := { memory with text := some text_content }
  let memory_dict : StoredMeta :=
    { id := memory.id
      type := memory.type
      text := memory.text
      source := memory.source
      tags := serializeTags memory.tags
      confidence := memory.confidence
      title := memory.title
      created_at := memory.created_at
      updated_at := memory.updated_at }
  let entry : StoredEntry := { meta := memory_dict, doc := text_content }
  ({ s with
      memories := insertA s.memories memory.id entry
      memories_metadata := insertA s.memories_metadata memory.id entry },
    memory)

/-- `StorageService.create` (lines 76-129).  The generated embedding vectors
are written to the vector index store together with the entry; no modelled
operation ever reads a stored vector back, so the model records only the
metadata and document. -/
def create (cfg : Settings) (emb : Embedder) (s : StorageState) (memory : Memory) :
    StorageState × Memory :=
  let text_content := extract_text memory.content
  let _embeddings : List ℚ × Option (List ℚ) :=
    if cfg.use_dual_embeddings then generate_dual_embeddings cfg emb text_content
    else
      let e := generate_embedding cfg emb text_content
      (e, some e)
  createStore s memory

/-- Decoding a stored metadata dictionary back into a `Memory`
(`storage.py` lines 150-163): parse tags from the comma-joined string and
reconstruct `content` as `{"text": text}` (content is never stored). -/
def decodeStoredMeta (md : StoredMeta) : Memory :=
  { id := md.id
    type := md.type
    content := [("text", match md.text with | some t => Json.str t | none => Json.null)]
    text := md.text
    source := md.source
    tags := parseTags md.tags
    confidence := md.confidence
    title := md.title
    created_at := md.created_at
    updated_at := md.updated_at
    similarity := none
    relationships := [] }

/-- `StorageService.get` (lines 131-172), on the non-exceptional path: look
the id up in the primary collection, decode the metadata, and populate the
relationships from the relationship graph.  (The `except` path, which
converts a collaborator failure into `None`, is modelled by `getE` below.) -/
def get (s : StorageState) (memory_id : Nat) : Option Memory :=
  match lookupA s.memories memory_id with
  | none => none
  | some entry =>
    some { decodeStoredMeta entry.meta with relationships := get_relationships s memory_id }

/-- `StorageService.delete` (lines 202-229), on the non-exceptional path:
remove the id from both collections (a no-op when absent), drop every
relationship having the id as either endpoint, and return `True`.  The
source computes the keys to delete and deletes them from the dictionary;
since dictionary keys are unique this equals keeping the non-matching
entries.  Note that the source returns `True` without checking whether the
id was present. -/
def delete (s : StorageState) (memory_id : Nat) : Bool × StorageState :=
  (true,
    { s with
        memories := removeA s.memories memory_id
        memories_metadata := removeA s.memories_metadata memory_id
        relationships := s.relationships.filter
          (fun p => !(p.2.from_memory_id == memory_id || p.2.to_memory_id == memory_id)) })

/-- The update loop of `StorageService.update` (lines 190-192): apply each
provided (non-null) field of the sparse map onto the fetched memory. -/
def applyUpdates (u : MemoryUpdate) (m : Memory) : Memory :=
  { m with
      type := u.type.getD m.type
      content := u.content.getD m.content
      source := u.source.getD m.source
      tags := u.tags.getD m.tags
      confidence := u.confidence.getD m.confidence
      title := match u.title with | some t => some t | none => m.title }

/-- `StorageService.update` (lines 174-200): fetch, apply field overrides,
stamp `updated_at = datetime.utcnow()` (the model clock, which then
advances), delete the old record (including the relationship cascade), and
recreate from the mutated record. -/
def update (cfg : Settings) (emb : Embedder) (s : StorageState) (memory_id : Nat)
    (updates : MemoryUpdate) : StorageState × Option Memory :=
  match get s memory_id with
  | none => (s, none)
  | some memory =>
    let memory := applyUpdates updates memory
    let memory := { memory with updated_at := s.now }
    let s := { s with now := s.now + 1 }
    let s := (delete s memory_id).2
    let (s, memory) := create cfg emb s memory
    (s, some memory)

/-! ## Blended search (`StorageService.search`, lines 231-353)

The two collection queries (lines 261-272) are calls to the vector index
store collaborator; `searchFrom` models the search body from line 274
downward, taking the two channels' query results as inputs.  A query result
is the parallel `ids`/`metadatas`/`distances` triple, modelled as a list of
hits. -/

/-- One hit of a ChromaDB `collection.query` result: id, stored metadata,
and distance to the query vector. -/
structure QueryHit where
  id : Nat
  meta : StoredMeta
  dist : ℚ
deriving DecidableEq

/-- Per-id channel similarities: the `{'primary': _, 'secondary': _}` dict. -/
structure ChanScores where
  primary : ℚ
  secondary : ℚ
deriving DecidableEq

/-- `combined_scores[id] = {'primary': sim, 'secondary': 0.0}` — Python dict
assignment: replace the value, keeping the key's original position, or
append a new key. -/
def upsertPrimary (l : List (Nat × ChanScores)) (k : Nat) (sim : ℚ) :
    List (Nat × ChanScores) :=
  match l with
  | [] => [(k, ⟨sim, 0⟩)]
  | (k', v) :: r =>
    if k' = k then (k', ⟨sim, 0⟩) :: r else (k', v) :: upsertPrimary r k sim

/-- Secondary-channel pass (lines 284-289): update the `secondary` field when
the id is already present, otherwise insert `{'primary': 0.0,
'secondary': sim}`. -/
def upsertSecondary (l : List (Nat × ChanScores)) (k : Nat) (sim : ℚ) :
    List (Nat × ChanScores) :=
  match l with
  | [] => [(k, ⟨0, sim⟩)]
  | (k', v) :: r =>
    if k' = k then (k', { v with secondary := sim }) :: r
    else (k', v) :: upsertSecondary r k sim

/-- The `combined_scores` dictionary after both passes (lines 275-289);
similarity is `1 - distance`. -/
def combinedScores (primary_results secondary_results : List QueryHit) :
    List (Nat × ChanScores) :=
  let after_primary :=
    primary_results.foldl (fun acc h => upsertPrimary acc h.id (1 - h.dist)) []
  secondary_results.foldl (fun acc h => upsertSecondary acc h.id (1 - h.dist)) after_primary

/-- The metadata lookup of lines 301-305: the first primary-channel hit with
the given id, if any (`next(..., None)` over `primary_results`). -/
def primaryMetaOf (primary_results : List QueryHit) (memory_id : Nat) : Option StoredMeta :=
  (primary_results.find? (fun h => h.id == memory_id)).map (·.meta)

/-- The tag-boost test of lines 307-312: a metadata dictionary was found, the
caller's tag filter is truthy (present and nonempty), and some filter tag is
among the record's parsed tags. -/
def tagBoostApplies (tags : Option (List (List Char))) (meta : Option StoredMeta) : Bool :=
  match meta, tags with
  | some md, some (t :: ts) => (t :: ts).any (fun tag => (parseTags md.tags).contains tag)
  | _, _ => false

/-- One entry of `final_scores`: `(memory_id, weighted_similarity, metadata)`. -/
abbrev ScoreEntry := Nat × ℚ × Option StoredMeta

/-- The `final_scores` list (lines 291-314): weighted combination of the two
channel similarities, plus the tag boost when applicable, paired with the
primary-channel metadata (or `None`). -/
def finalScores (cfg : Settings) (primary_results secondary_results : List QueryHit)
    (tags : Option (List (List Char))) : List ScoreEntry :=
  (combinedScores primary_results secondary_results).map (fun p =>
    let weighted := p.2.primary * cfg.embedding_weight_primary
      + p.2.secondary * cfg.embedding_weight_secondary
    let meta := primaryMetaOf primary_results p.1
    let weighted := if tagBoostApplies tags meta then weighted + cfg.tag_boost else weighted
    (p.1, weighted, meta))

/-- Stable descending insertion by score: the new element goes after every
already-placed element of greater-or-equal score. -/
def insertDescByScore (x : ScoreEntry) : List ScoreEntry → List ScoreEntry
  | [] => [x]
  | y :: ys => if y.2.1 < x.2.1 then x :: y :: ys else y :: insertDescByScore x ys

/-- `final_scores.sort(key=lambda x: x[1], reverse=True)` (line 317): the
stable descending sort by score.  Python's sort is stable; a stable sort is
extensionally unique, and is realised here by stable insertion. -/
def sortByScoreDesc (l : List ScoreEntry) : List ScoreEntry :=
  l.foldl (fun acc x => insertDescByScore x acc) []

/-- The survivor list (lines 316-330): sort descending, filter by the
configured similarity threshold, retry with the fallback threshold if the
filter is empty and fallback is enabled, truncate to `limit`. -/
def survivorScores (cfg : Settings) (final_scores : List ScoreEntry) (limit : Nat)
    (use_fallback : Bool) : List ScoreEntry :=
  let sorted := sortByScoreDesc final_scores
  let filtered := sorted.filter (fun x => cfg.similarity_threshold ≤ x.2.1)
  let filtered :=
    if filtered.isEmpty && use_fallback then
      sorted.filter (fun x => cfg.fallback_threshold ≤ x.2.1)
    else filtered
  filtered.take limit

/-- Decoding one survivor (lines 334-350): entries whose metadata is `None`
(the id did not appear in the primary channel's results) are skipped; the
rest are decoded and the combined score is attached as the transient
`similarity`. -/
def decodeSurvivor (x : ScoreEntry) : Option Memory :=
  x.2.2.map (fun md => { decodeStoredMeta md with similarity := some x.2.1 })

/-- `StorageService.search` from the channel results down (lines 274-353). -/
def searchFrom (cfg : Settings) (primary_results secondary_results : List QueryHit)
    (tags : Option (List (List Char))) (limit : Nat) (use_fallback : Bool) : List Memory :=
  (survivorScores cfg (finalScores cfg primary_results secondary_results tags)
      limit use_fallback).filterMap decodeSurvivor

/-- Full `StorageService.search` (lines 231-353): generate the query's dual
embedding, query each channel's collection for `limit * 2` nearest hits, and
continue with `searchFrom`.  The two collection queries are collaborator
functions from (query vector, n_results) to hit lists. -/
def search (cfg : Settings) (emb : Embedder)
    (queryPrimary querySecondary : List ℚ → Nat → List QueryHit)
    (query : String) (tags : Option (List (List Char))) (limit : Nat)
    (use_fallback : Bool) : List Memory :=
  let q :=
    if cfg.use_dual_embeddings then
      let pair := generate_dual_embeddings cfg emb query
      (pair.1, pair.2.getD pair.1)
    else
      let e := generate_embedding cfg emb query
      (e, e)
  let primary_results := queryPrimary q.1 (limit * 2)
  let secondary_results := querySecondary q.2 (limit * 2)
  searchFrom cfg primary_results secondary_results tags limit use_fallback

/-! ## Fallible collaborator paths (error-handling model)

`create` has no `try`/`except` and makes three collaborator calls in order:
the embedding generation (lines 93-97), the primary-collection `add` (lines
113-118) and the secondary-collection `add` (lines 121-126).  The first
failure propagates to the caller at the point it occurs, leaving any writes
already made in place — in particular a failure of the second `add` leaves
the primary collection already written.  `get` (lines 141-172) wraps its
whole body in `try`/`except` and converts any failure into `None`.
`delete`'s `try` block (lines 212-225) spans the primary-collection delete,
the secondary-collection delete and the relationship cascade, and its
`except` branch (lines 227-229) converts any failure into `False` — so a
failure of the second collection delete returns `False` with the primary
collection already mutated.  Each collaborator call outcome is passed in as
an `Except` value; a call that fails performs no write of its own. -/

/-- `StorageService.create` with fallible collaborators: the embedding call,
then the primary-collection `add`, then the secondary-collection `add`; the
first failure propagates (the error carries the state as of the failure,
with earlier writes in place). -/
def createE (s : StorageState) (memory : Memory)
    (embed : String → Except String (List ℚ × Option (List ℚ)))
    (add_primary add_secondary : Except String Unit) :
    Except (String × StorageState) (StorageState × Memory) :=
  let text_content := extract_text memory.content
  let memory := { memory with text := some text_content }
  match embed text_content with
  | .error e => .error (e, s)
  | .ok _ =>
    let memory_dict : StoredMeta :=
      { id := memory.id
        type := memory.type
        text := memory.text
        source := memory.source
        tags := serializeTags memory.tags
        confidence := memory.confidence
        title := memory.title
        created_at := memory.created_at
        updated_at := memory.updated_at }
    let entry : StoredEntry := { meta := memory_dict, doc := text_content }
    match add_primary with
    | .error e => .error (e, s)
    | .ok _ =>
      let s := { s with memories := insertA s.memories memory.id entry }
      match add_secondary with
      | .error e => .error (e, s)
      | .ok _ =>
        .ok ({ s with memories_metadata := insertA s.memories_metadata memory.id entry },
          memory)

/-- `StorageService.get` with a fallible index-store fetch (the only
collaborator call inside its `try` block; `get` itself writes nothing): the
`except` branch turns any failure into `None`. -/
def getE (s : StorageState) (memory_id : Nat)
    (fetch : Except String (Option StoredEntry)) : Option Memory :=
  match fetch with
  | .error _ => none
  | .ok none => none
  | .ok (some entry) =>
    some { decodeStoredMeta entry.meta with relationships := get_relationships s memory_id }

/-- `StorageService.delete` with fallible index-store deletes: the `try`
block spans the primary delete, the secondary delete and the (pure)
relationship cascade; the `except` branch turns any failure into `False`,
keeping whatever removals already happened. -/
def deleteE (s : StorageState) (memory_id : Nat)
    (delete_primary delete_secondary : Except String Unit) : Bool × StorageState :=
  match delete_primary with
  | .error _ => (false, s)
  | .ok _ =>
    let s := { s with memories := removeA s.memories memory_id }
    match delete_secondary with
    | .error _ => (false, s)
    | .ok _ =>
      (true,
        { s with
            memories_metadata := removeA s.memories_metadata memory_id
            relationships := s.relationships.filter
              (fun p =>
                !(p.2.from_memory_id == memory_id || p.2.to_memory_id == memory_id)) })

end StorageService

open StorageService (QueryHit ChanScores ScoreEntry)

/-! ## Helper lemmas: association lists -/

theorem lookupA_cons {α : Type} (k' : Nat) (v' : α) (t : List (Nat × α)) (k : Nat) :
    lookupA ((k', v') :: t) k = if k' = k then some v' else lookupA t k := by
  by_cases h : k' = k
  · simp [lookupA, List.find?_cons, h]
  · simp [lookupA, List.find?_cons, h]

theorem lookupA_insertA_self {α : Type} (l : List (Nat × α)) (k : Nat) (v : α) :
    lookupA (insertA l k v) k = some v := by
  induction l with
  | nil => simp [insertA, lookupA, List.find?]
  | cons p r ih =>
    obtain ⟨k', v'⟩ := p
    by_cases h : k' = k
    · simp [insertA, h, lookupA, List.find?]
    · simp only [insertA, if_neg h]
      rw [lookupA_cons, if_neg h]
      exact ih

/-! ## Helper lemmas: the tag codec -/

theorem splitCommaAux_no_comma (t : List Char) (hc : ',' ∉ t) :
    ∀ acc, splitCommaAux t acc = [acc.reverse ++ t] := by
  induction t with
  | nil => intro acc; simp [splitCommaAux]
  | cons c cs ih =>
    intro acc
    have hcne : c ≠ ',' := fun h => hc (h ▸ List.mem_cons_self c cs)
    have hcs : ',' ∉ cs := fun h => hc (List.mem_cons_of_mem c h)
    simp only [splitCommaAux, if_neg hcne]
    rw [ih hcs]
    simp

theorem splitCommaAux_comma (t rest : List Char) (hc : ',' ∉ t) :
    ∀ acc, splitCommaAux (t ++ ',' :: rest) acc = (acc.reverse ++ t) :: splitCommaAux rest [] := by
  induction t with
  | nil => intro acc; simp [splitCommaAux]
  | cons c cs ih =>
    intro acc
    have hcne : c ≠ ',' := fun h => hc (h ▸ List.mem_cons_self c cs)
    have hcs : ',' ∉ cs := fun h => hc (List.mem_cons_of_mem c h)
    simp only [List.cons_append, splitCommaAux, if_neg hcne, List.append_eq]
    rw [ih hcs]
    simp

theorem pyStrip_nil : pyStrip [] = [] := rfl

/-- Round trip of the tag codec on tags that are nonempty, comma-free, and
free of leading/trailing whitespace. -/
theorem parseTags_serializeTags (tags : List (List Char))
    (h : ∀ t ∈ tags, ¬t.isEmpty ∧ ',' ∉ t ∧ pyStrip t = t) :
    parseTags (serializeTags tags) = tags := by
  induction tags with
  | nil => simp [parseTags, serializeTags, joinComma, splitComma, splitCommaAux, pyStrip]
  | cons t ts ih =>
    obtain ⟨ht1, ht2, ht3⟩ := h t (List.mem_cons_self t ts)
    have hts : ∀ u ∈ ts, ¬u.isEmpty ∧ ',' ∉ u ∧ pyStrip u = u :=
      fun u hu => h u (List.mem_cons_of_mem t hu)
    cases ts with
    | nil =>
      simp only [serializeTags, joinComma, parseTags, splitComma]
      rw [splitCommaAux_no_comma t ht2]
      simp [ht3, ht1]
    | cons t' ts' =>
      have hjoin : serializeTags (t :: t' :: ts') = t ++ ',' :: serializeTags (t' :: ts') := rfl
      simp only [parseTags, splitComma, hjoin]
      rw [splitCommaAux_comma t _ ht2]
      have := ih hts
      simp only [parseTags, splitComma] at this
      simp only [List.reverse_nil, List.nil_append, List.map_cons, List.filter_cons, ht3]
      rw [this]
      simp [ht1]

/-! ## Shared concrete fixtures -/

/-- A concrete embedder used to instantiate collaborator parameters. -/
def embX : Embedder := { encode_primary := fun _ => [1], encode_secondary := fun _ => [1] }

/-- Concrete relationship A→B (record ids 1 → 2). -/
def relAB : MemoryRelationship :=
  { id := 100, from_memory_id := 1, to_memory_id := 2, type := .related_to, created_at := 0 }

/-- Concrete relationship B→C (record ids 2 → 3). -/
def relBC : MemoryRelationship :=
  { id := 101, from_memory_id := 2, to_memory_id := 3, type := .depends_on, created_at := 0 }

/-- A state whose relationship graph holds A→B and B→C. -/
def stateABC : StorageState :=
  { memories := [], memories_metadata := [],
    relationships := [(100, relAB), (101, relBC)], now := 0 }

/-- The stored metadata of a concrete record B (id 2). -/
def metaB : StoredMeta :=
  { id := 2, type := "note", text := some "txt", source := "test",
    tags := serializeTags [], confidence := 1, title := some "B",
    created_at := 0, updated_at := 0 }

/-- A state holding record B (id 2) and the relationship A→B, clock at 3. -/
def stateB : StorageState :=
  { memories := [(2, ⟨metaB, "txt"⟩)], memories_metadata := [(2, ⟨metaB, "txt"⟩)],
    relationships := [(100, relAB)], now := 3 }

/-- The memory that `get` returns for record B in `stateB`. -/
def mB : Memory :=
  { id := 2, type := "note", content := [("text", Json.str "txt")], text := some "txt",
    source := "test", tags := [], confidence := 1, title := some "B",
    created_at := 0, updated_at := 0, similarity := none, relationships := [relAB] }

/-! ## C6 — delete of a missing id -/

/-- C6 (code_bug evidence): `delete` does **not** report whether a record was
present.  On a store that does not contain id 7 (so `get` returns "not
found"), `delete` nevertheless returns `True`, and so does a second delete
of the same id: the source never checks presence (ChromaDB's collection
delete is a no-op for absent ids) and returns `True` on every non-exceptional path,
contradicting both the claim and the function's own docstring
("True if deleted, False if not found"). -/
theorem C6_delete_missing_returns_true :
    StorageService.get (emptyState 0) 7 = none ∧
    (StorageService.delete (emptyState 0) 7).1 = true ∧
    (StorageService.delete ((StorageService.delete (emptyState 0) 7).2) 7).1 = true :=
  ⟨rfl, rfl, rfl⟩

/-! ## C7 — cascading relationship deletion -/

/-- Cascade helper: `delete(X)` leaves no edge touching X in the graph. -/
theorem delete_cascades_aux (s : StorageState) (X : Nat) :
    StorageService.get_relationships (StorageService.delete s X).2 X = [] ∧
    ∀ p ∈ (StorageService.delete s X).2.relationships,
      p.2.from_memory_id ≠ X ∧ p.2.to_memory_id ≠ X := by
  have hmem : ∀ p ∈ (StorageService.delete s X).2.relationships,
      p.2.from_memory_id ≠ X ∧ p.2.to_memory_id ≠ X := by
    intro p hp
    have := List.of_mem_filter hp
    simp only [Bool.not_eq_true', Bool.or_eq_false_iff, beq_eq_false_iff_ne] at this
    exact this
  refine ⟨?_, hmem⟩
  rw [StorageService.get_relationships, List.filter_eq_nil_iff]
  intro rel hrel
  rcases List.mem_map.1 hrel with ⟨p, hp, rfl⟩
  have := hmem p hp
  simp [this.1, this.2]

/-- C7: after `delete(X)`, no relationship with X as either endpoint remains
in the relationship graph: querying X's relationships yields `[]`, and every
edge still stored avoids X on both endpoints. -/
theorem C7_delete_cascades (s : StorageState) (X : Nat) :
    StorageService.get_relationships (StorageService.delete s X).2 X = [] ∧
    ∀ p ∈ (StorageService.delete s X).2.relationships,
      p.2.from_memory_id ≠ X ∧ p.2.to_memory_id ≠ X :=
  delete_cascades_aux s X

/-- C7 witness: with relationships A→B and B→C stored, deleting record B
(id 2) leaves zero relationships referencing B — indeed none at all. -/
theorem C7_delete_cascades_witness :
    StorageService.get_relationships stateABC 2 = [relAB, relBC] ∧
    StorageService.get_relationships (StorageService.delete stateABC 2).2 2 = [] ∧
    (StorageService.delete stateABC 2).2.relationships = [] :=
  ⟨by decide, (C7_delete_cascades stateABC 2).1, by decide⟩

/-! ## C9 — collaborator failure handling -/

/-- C9 (counterexample to the claim as stated): collaborator failures inside
`get` and `delete` are **not** surfaced to the caller.  A failing
index-store fetch inside `get` is converted by the `except` block into the
ordinary "not found" result `None`; and in `stateB` — which does hold record
2 — a failure of the *second* collection delete makes `delete` return the
negative result `False` with the primary collection already mutated (the
record half-removed), rather than raising. -/
theorem C9_counterexample :
    StorageService.getE (emptyState 0) 1 (.error "index store unavailable") = none ∧
    StorageService.get stateB 2 = some mB ∧
    StorageService.deleteE stateB 2 (.ok ()) (.error "index store unavailable") =
      (false,
        { memories := [], memories_metadata := [(2, ⟨metaB, "txt"⟩)],
          relationships := [(100, relAB)], now := 3 }) :=
  ⟨rfl, rfl, rfl⟩

/-- C9 (amended): no operation retries a collaborator call (each outcome is
consulted at most once).  `create` has no `try`/`except`, so a collaborator
failure propagates to the caller at the point it occurs — an embedding or
first-add failure before any write, a second-add failure with the primary
collection already written.  `get` converts any failure into `None`
("not found"); `delete` converts any failure into `False` rather than
surfacing it — with the state unchanged when the first collection delete
fails, and with the primary collection already mutated when the second one
fails.  On all-successful collaborators, `createE` and `deleteE` agree with
the non-exceptional `create`/`delete` paths. -/
theorem C9_failure_paths (s : StorageState) (memory : Memory) (memory_id : Nat)
    (e1 e2 e3 : String) (vecs : List ℚ × Option (List ℚ))
    (a1 a2 : Except String Unit) :
    StorageService.createE s memory (fun _ => .error e1) a1 a2 = .error (e1, s) ∧
    StorageService.createE s memory (fun _ => .ok vecs) (.error e2) a2 = .error (e2, s) ∧
    StorageService.createE s memory (fun _ => .ok vecs) (.ok ()) (.error e3) =
      .error (e3,
        { s with
            memories := insertA s.memories memory.id
              { meta :=
                  { id := memory.id, type := memory.type,
                    text := some (extract_text memory.content), source := memory.source,
                    tags := serializeTags memory.tags, confidence := memory.confidence,
                    title := memory.title, created_at := memory.created_at,
                    updated_at := memory.updated_at },
                doc := extract_text memory.content } }) ∧
    StorageService.createE s memory (fun _ => .ok vecs) (.ok ()) (.ok ()) =
      .ok (StorageService.createStore s memory) ∧
    StorageService.getE s memory_id (.error e1) = none ∧
    StorageService.deleteE s memory_id (.error e1) a2 = (false, s) ∧
    StorageService.deleteE s memory_id (.ok ()) (.error e2) =
      (false, { s with memories := removeA s.memories memory_id }) ∧
    StorageService.deleteE s memory_id (.ok ()) (.ok ()) =
      StorageService.delete s memory_id :=
  ⟨rfl, rfl, rfl, rfl, rfl, rfl, rfl, rfl⟩

/-! ## C10 — the tag codec -/

/-- C10: tags are joined with a comma for storage and split/stripped/
filtered on read.  (1) Tags that are nonempty, comma-free and free of
leading/trailing whitespace round-trip exactly; this lifts to the storage
level: `get` after `create` returns exactly the original tag list.  (2) A
tag containing a comma is read back as multiple tags.  (3) Whitespace-only
tags are dropped on read. -/
theorem C10_tag_codec :
    (∀ tags : List (List Char),
       (∀ t ∈ tags, ¬t.isEmpty ∧ ',' ∉ t ∧ pyStrip t = t) →
       parseTags (serializeTags tags) = tags) ∧
    parseTags (serializeTags [['a', ',', 'b']]) = [['a'], ['b']] ∧
    parseTags (serializeTags [['x'], [' ', ' '], ['y']]) = [['x'], ['y']] ∧
    (∀ (cfg : Settings) (emb : Embedder) (s : StorageState) (r : Memory),
       (∀ t ∈ r.tags, ¬t.isEmpty ∧ ',' ∉ t ∧ pyStrip t = t) →
       Option.map Memory.tags (StorageService.get (StorageService.create cfg emb s r).1 r.id) = some r.tags) := by
  refine ⟨parseTags_serializeTags, by decide, by decide, ?_⟩
  intro cfg emb s r h
  show Option.map Memory.tags (StorageService.get (StorageService.createStore s r).1 r.id) = some r.tags
  simp only [StorageService.createStore, StorageService.get]
  rw [lookupA_insertA_self]
  simp [StorageService.decodeStoredMeta, parseTags_serializeTags r.tags h]

/-- C10 witness: the round-trip branch applied to the concrete tag list
`["d", "ev"]`, whose tags satisfy the hypotheses. -/
theorem C10_tag_codec_witness :
    (∀ t ∈ [['d'], ['e', 'v']], ¬t.isEmpty ∧ ',' ∉ t ∧ pyStrip t = t) ∧
    parseTags (serializeTags [['d'], ['e', 'v']]) = [['d'], ['e', 'v']] :=
  ⟨by decide, C10_tag_codec.1 [['d'], ['e', 'v']] (by decide)⟩

/-! ## C1 — create/get round trip -/

/-- Characterization of `get` after `create` on the same id: the stored
metadata is decoded back, with relationships populated from the (unchanged)
relationship graph. -/
theorem get_createStore (s : StorageState) (r : Memory) :
    StorageService.get (StorageService.createStore s r).1 r.id =
      some { StorageService.decodeStoredMeta
               { id := r.id, type := r.type, text := some (extract_text r.content),
                 source := r.source, tags := serializeTags r.tags,
                 confidence := r.confidence, title := r.title,
                 created_at := r.created_at, updated_at := r.updated_at } with
             relationships := StorageService.get_relationships s r.id } := by
  simp only [StorageService.createStore, StorageService.get]
  rw [lookupA_insertA_self]
  rfl

/-- C1 (amended): `get(create(r).id)` returns a record equal to `r` in
`type`, `source`, `confidence` and `title`, with `text` deterministically
derived from the content payload; `tags` round-trip exactly under the tag
codec's conditions (each tag nonempty, comma-free, and free of
leading/trailing whitespace); but `content` is *not* preserved — it is
reconstructed as the single-key dictionary `{"text": text}`. -/
theorem C1_roundtrip (cfg : Settings) (emb : Embedder) (s : StorageState) (r : Memory)
    (htags : ∀ t ∈ r.tags, ¬t.isEmpty ∧ ',' ∉ t ∧ pyStrip t = t) :
    (StorageService.create cfg emb s r).2.id = r.id ∧
    ∃ m, StorageService.get (StorageService.create cfg emb s r).1 r.id = some m ∧
      m.type = r.type ∧ m.source = r.source ∧ m.confidence = r.confidence ∧
      m.title = r.title ∧ m.tags = r.tags ∧
      m.text = some (extract_text r.content) ∧
      m.content = [("text", Json.str (extract_text r.content))] := by
  refine ⟨rfl, ⟨_, get_createStore s r, ?_, ?_, ?_, ?_, ?_, ?_, ?_⟩⟩ <;>
    simp [StorageService.decodeStoredMeta, parseTags_serializeTags r.tags htags]

/-- A record as a caller would supply it: content `{"a": "x"}`, no tags. -/
def r0 : Memory :=
  { id := 1, type := "note", content := [("a", Json.str "x")], source := "test",
    created_at := 0, updated_at := 0 }

/-- The key list of a memory's content dictionary. -/
def memoryContentKeys (m : Memory) : List String := m.content.map Prod.fst

/-- C1 (counterexample to the claim as stated): `content` is a
caller-supplied field, but `get(create(r).id)` does not return it.  For the
record `r0` with content `{"a": "x"}`, the returned record's content is the
reconstructed `{"text": ...}` dictionary — its key list is `["text"]`, not
`["a"]` — so the returned record is not equal to `r0` in the `content`
field. -/
theorem C1_counterexample :
    Option.map memoryContentKeys
      (StorageService.get (StorageService.create defaultSettings embX (emptyState 1) r0).1 1)
      = some ["text"] ∧
    memoryContentKeys r0 = ["a"] ∧
    ("text" : String) ≠ "a" := by
  refine ⟨?_, by decide, by decide⟩
  have h := get_createStore (emptyState 1) r0
  show Option.map memoryContentKeys
      (StorageService.get (StorageService.createStore (emptyState 1) r0).1 r0.id) = some ["text"]
  rw [h]
  simp [StorageService.decodeStoredMeta, memoryContentKeys, r0]

/-- A record with two well-behaved tags, for the C1 witness. -/
def r1 : Memory :=
  { id := 4, type := "fact", content := [], source := "chat",
    tags := [['a'], ['b']], created_at := 0, updated_at := 0 }

/-- C1 witness: the amended round trip applied to the concrete record `r1`. -/
theorem C1_roundtrip_witness :
    (∀ t ∈ r1.tags, ¬t.isEmpty ∧ ',' ∉ t ∧ pyStrip t = t) ∧
    ((StorageService.create defaultSettings embX (emptyState 0) r1).2.id = r1.id ∧
     ∃ m, StorageService.get (StorageService.create defaultSettings embX (emptyState 0) r1).1
            r1.id = some m ∧
       m.type = r1.type ∧ m.source = r1.source ∧ m.confidence = r1.confidence ∧
       m.title = r1.title ∧ m.tags = r1.tags ∧
       m.text = some (extract_text r1.content) ∧
       m.content = [("text", Json.str (extract_text r1.content))]) :=
  ⟨by decide, C1_roundtrip defaultSettings embX (emptyState 0) r1 (by decide)⟩

/-! ## C8 — blank-text embeddings -/

/-- Settings in which the two channels are configured with *different*
dimensions (both dimensions are independent configuration fields of
`src/config.py`). -/
def cfgDim : Settings :=
  { defaultSettings with embedding_dimension := 2, embedding_dimension_secondary := 3 }

/-- C8 (counterexample to the claim as stated): for whitespace-only input,
`generate_dual_embeddings` builds the zero vector for *both* channels from
the primary `embedding_dimension` (line 184 of `embeddings.py`).  Under a
configuration with primary dimension 2 and secondary dimension 3, the
secondary channel's zero vector has length 2, not the secondary channel's
configured dimension 3. -/
theorem C8_counterexample :
    (generate_dual_embeddings cfgDim embX " ").2 = some [0, 0] ∧
    cfgDim.embedding_dimension_secondary = 3 ∧
    ([0, 0] : List ℚ).length ≠ cfgDim.embedding_dimension_secondary := by
  refine ⟨?_, rfl, by decide⟩
  simp [generate_dual_embeddings, cfgDim, defaultSettings, isBlank, pyStrip, isPySpace,
    List.replicate]

/-- C8 (amended): for empty or whitespace-only text, `generate_embedding`
and `generate_dual_embeddings` return all-zero vectors of the *primary*
configured dimension (for both channels) instead of failing — the correct
dimension for each channel whenever the two configured dimensions agree, as
they do (384/384) in the default configuration — and both operations are
deterministic: identical input text yields identical vectors. -/
theorem C8_blank_embeddings (cfg : Settings) (emb : Embedder) (text : String)
    (h : isBlank text = true) :
    generate_embedding cfg emb text = List.replicate cfg.embedding_dimension 0 ∧
    generate_dual_embeddings cfg emb text =
      (List.replicate cfg.embedding_dimension 0,
       if cfg.use_dual_embeddings then some (List.replicate cfg.embedding_dimension 0)
       else none) ∧
    (∀ t₁ t₂ : String, t₁ = t₂ →
       generate_embedding cfg emb t₁ = generate_embedding cfg emb t₂ ∧
       generate_dual_embeddings cfg emb t₁ = generate_dual_embeddings cfg emb t₂) := by
  refine ⟨?_, ?_, ?_⟩
  · simp [generate_embedding, h]
  · simp [generate_dual_embeddings, h]
  · rintro t₁ t₂ rfl
    exact ⟨rfl, rfl⟩

/-- C8 witness: the blank-text behaviour applied to the one-space string
under the default configuration. -/
theorem C8_blank_embeddings_witness :
    isBlank " " = true ∧
    (generate_embedding defaultSettings embX " " =
       List.replicate defaultSettings.embedding_dimension 0 ∧
     generate_dual_embeddings defaultSettings embX " " =
       (List.replicate defaultSettings.embedding_dimension 0,
        if defaultSettings.use_dual_embeddings then
          some (List.replicate defaultSettings.embedding_dimension 0)
        else none) ∧
     (∀ t₁ t₂ : String, t₁ = t₂ →
        generate_embedding defaultSettings embX t₁ = generate_embedding defaultSettings embX t₂ ∧
        generate_dual_embeddings defaultSettings embX t₁ =
          generate_dual_embeddings defaultSettings embX t₂)) :=
  ⟨by decide, C8_blank_embeddings defaultSettings embX " " (by decide)⟩

/-! ## C5 — update changing only confidence -/

/-- The relationships field of any record returned by `get` is exactly the
graph's answer for the queried id. -/
theorem get_relationships_of_get (s : StorageState) (k : Nat) (m : Memory)
    (h : StorageService.get s k = some m) :
    m.relationships = StorageService.get_relationships s k := by
  unfold StorageService.get at h
  cases hl : lookupA s.memories k with
  | none => rw [hl] at h; exact absurd h (by simp)
  | some entry =>
    rw [hl] at h
    cases h
    rfl

/-- C5 (amended): `update(id, {confidence: c})` preserves the record's id,
title and tags, and stamps an `updated_at` strictly later than the record's
previous one (given the clock has advanced since that previous stamp, which
is what `datetime.utcnow()` yields whenever measurable time passed).  The
relationships, however, are *not* preserved in the store: the
delete-then-recreate cascade removes every edge touching the id and never
restores it — the returned record still carries the pre-update relationship
list, but the graph no longer does, and a subsequent `get` returns the
record with an empty relationship list. -/
theorem C5_update_confidence (cfg : Settings) (emb : Embedder) (s : StorageState)
    (memory_id : Nat) (c : ℚ) (m : Memory)
    (hm : StorageService.get s memory_id = some m)
    (hclock : m.updated_at < s.now) :
    ∃ s' r, StorageService.update cfg emb s memory_id { confidence := some c } = (s', some r) ∧
      r.id = m.id ∧ r.title = m.title ∧ r.tags = m.tags ∧
      r.relationships = m.relationships ∧ r.confidence = c ∧
      r.updated_at = s.now ∧ m.updated_at < r.updated_at ∧
      StorageService.get_relationships s' memory_id = [] ∧
      (∀ m', StorageService.get s' memory_id = some m' → m'.relationships = []) := by
  simp only [StorageService.update, hm]
  refine ⟨_, _, rfl, rfl, rfl, rfl, rfl, rfl, rfl, hclock, ?_, ?_⟩
  · exact (delete_cascades_aux { s with now := s.now + 1 } memory_id).1
  · intro m' hm'
    rw [get_relationships_of_get _ _ _ hm']
    exact (delete_cascades_aux { s with now := s.now + 1 } memory_id).1

/-- C5 (counterexample to the claim as stated): a confidence-only `update`
does **not** preserve the record's relationships.  In `stateB`, record B has
the relationship A→B; after `update(B, {confidence: 0.5})` the graph holds
no edge at all (the cascade deleted A→B and the recreate did not restore
it), even though the *returned* record object still lists it. -/
theorem C5_counterexample :
    StorageService.get_relationships stateB 2 = [relAB] ∧
    StorageService.get_relationships
      (StorageService.update defaultSettings embX stateB 2 { confidence := some (1/2) }).1 2
      = [] ∧
    (StorageService.update defaultSettings embX stateB 2
        { confidence := some (1/2) }).1.relationships = [] ∧
    Option.map Memory.relationships
      (StorageService.update defaultSettings embX stateB 2 { confidence := some (1/2) }).2
      = some [relAB] := by
  refine ⟨by decide, ?_, by decide, ?_⟩
  · decide
  · decide

/-- C5 witness: the amended update property applied to record B of `stateB`
(previous `updated_at` 0, clock at 3). -/
theorem C5_update_confidence_witness :
    (StorageService.get stateB 2 = some mB ∧ mB.updated_at < stateB.now) ∧
    (∃ s' r, StorageService.update defaultSettings embX stateB 2 { confidence := some (1/2) }
        = (s', some r) ∧
      r.id = mB.id ∧ r.title = mB.title ∧ r.tags = mB.tags ∧
      r.relationships = mB.relationships ∧ r.confidence = 1/2 ∧
      r.updated_at = stateB.now ∧ mB.updated_at < r.updated_at ∧
      StorageService.get_relationships s' 2 = [] ∧
      (∀ m', StorageService.get s' 2 = some m' → m'.relationships = [])) :=
  ⟨⟨rfl, by decide⟩,
    C5_update_confidence defaultSettings embX stateB 2 (1/2) mB rfl (by decide)⟩

/-! ## Search-pipeline lemmas -/

/-- The similarity a channel's result list assigns to an id: `1 - distance`
of its hit, or `0.0` when the id did not appear in that channel's top-k. -/
def chanSimOf (hits : List QueryHit) (k : Nat) : ℚ :=
  match hits.find? (fun h => h.id == k) with
  | some h => 1 - h.dist
  | none => 0

theorem lookupA_upsertPrimary (l : List (Nat × ChanScores)) (k k' : Nat) (sim : ℚ) :
    lookupA (StorageService.upsertPrimary l k sim) k' =
      if k' = k then some ⟨sim, 0⟩ else lookupA l k' := by
  induction l with
  | nil =>
    by_cases h : k' = k
    · subst h
      simp [StorageService.upsertPrimary, lookupA_cons]
    · have h' : ¬(k = k') := fun hh => h hh.symm
      simp [StorageService.upsertPrimary, lookupA_cons, h, h', lookupA]
  | cons p r ih =>
    obtain ⟨a, v⟩ := p
    by_cases hak : a = k
    · subst hak
      by_cases h : k' = a
      · subst h
        simp [StorageService.upsertPrimary, lookupA_cons]
      · have h' : ¬(a = k') := fun hh => h hh.symm
        simp [StorageService.upsertPrimary, lookupA_cons, h, h']
    · by_cases h2 : a = k'
      · subst h2
        have h3 : ¬(a = k) := hak
        simp [StorageService.upsertPrimary, lookupA_cons, h3]
      · by_cases h3 : k' = k
        · subst h3
          simp [StorageService.upsertPrimary, lookupA_cons, hak, h2, ih]
        · simp [StorageService.upsertPrimary, lookupA_cons, hak, h2, h3, ih]

theorem lookupA_upsertSecondary (l : List (Nat × ChanScores)) (k k' : Nat) (sim : ℚ) :
    lookupA (StorageService.upsertSecondary l k sim) k' =
      if k' = k then
        match lookupA l k with
        | some cs => some { cs with secondary := sim }
        | none => some ⟨0, sim⟩
      else lookupA l k' := by
  induction l with
  | nil =>
    by_cases h : k' = k
    · subst h
      simp [StorageService.upsertSecondary, lookupA_cons, lookupA]
    · have h' : ¬(k = k') := fun hh => h hh.symm
      simp [StorageService.upsertSecondary, lookupA_cons, h, h', lookupA]
  | cons p r ih =>
    obtain ⟨a, v⟩ := p
    by_cases hak : a = k
    · subst hak
      by_cases h : k' = a
      · subst h
        simp [StorageService.upsertSecondary, lookupA_cons]
      · have h' : ¬(a = k') := fun hh => h hh.symm
        simp [StorageService.upsertSecondary, lookupA_cons, h, h']
    · by_cases h2 : a = k'
      · subst h2
        have h3 : ¬(a = k) := hak
        simp [StorageService.upsertSecondary, lookupA_cons, h3]
      · by_cases h3 : k' = k
        · subst h3
          simp [StorageService.upsertSecondary, lookupA_cons, hak, h2, ih]
        · simp [StorageService.upsertSecondary, lookupA_cons, hak, h2, h3, ih]

theorem lookupA_foldl_upsertPrimary (hits : List QueryHit) (acc : List (Nat × ChanScores))
    (k : Nat) :
    lookupA (hits.foldl (fun acc h => StorageService.upsertPrimary acc h.id (1 - h.dist)) acc) k =
      match hits.reverse.find? (fun h => h.id == k) with
      | some h => some ⟨1 - h.dist, 0⟩
      | none => lookupA acc k := by
  induction hits generalizing acc with
  | nil => rfl
  | cons h t ih =>
    rw [List.foldl_cons, ih, List.reverse_cons, List.find?_append]
    cases ht : t.reverse.find? (fun x => x.id == k) with
    | some h' => simp [ht]
    | none =>
      simp only [ht, Option.none_or]
      rw [lookupA_upsertPrimary]
      by_cases hk : h.id = k
      · have hbeq : (h.id == k) = true := by simpa using hk
        simp [List.find?, hbeq, hk]
      · have hbeq : (h.id == k) = false := by simpa using hk
        have hk' : ¬(k = h.id) := fun hh => hk hh.symm
        simp [List.find?, hbeq, hk']

theorem lookupA_foldl_upsertSecondary (hits : List QueryHit) (acc : List (Nat × ChanScores))
    (k : Nat) :
    lookupA (hits.foldl (fun acc h => StorageService.upsertSecondary acc h.id (1 - h.dist)) acc)
        k =
      match hits.reverse.find? (fun h => h.id == k) with
      | some h =>
        match lookupA acc k with
        | some cs => some { cs with secondary := 1 - h.dist }
        | none => some ⟨0, 1 - h.dist⟩
      | none => lookupA acc k := by
  induction hits generalizing acc with
  | nil => rfl
  | cons h t ih =>
    rw [List.foldl_cons, ih, List.reverse_cons, List.find?_append]
    cases ht : t.reverse.find? (fun x => x.id == k) with
    | some h' =>
      have hor : (some h').or (List.find? (fun x => x.id == k) [h]) = some h' := rfl
      rw [hor, lookupA_upsertSecondary]
      by_cases hk : k = h.id
      · rw [if_pos hk]
        subst hk
        cases hacc : lookupA acc h.id with
        | some cs => simp [hacc]
        | none => simp [hacc]
      · rw [if_neg hk]
    | none =>
      simp only [ht, Option.none_or]
      rw [lookupA_upsertSecondary]
      by_cases hk : h.id = k
      · have hbeq : (h.id == k) = true := by simpa using hk
        have hk' : k = h.id := hk.symm
        rw [if_pos hk']
        subst hk'
        simp [List.find?, hbeq]
      · have hbeq : (h.id == k) = false := by simpa using hk
        have hk' : ¬(k = h.id) := fun hh => hk hh.symm
        rw [if_neg hk']
        simp [List.find?, hbeq]

theorem find?_reverse_of_nodup (hits : List QueryHit) (k : Nat)
    (hn : (hits.map QueryHit.id).Nodup) :
    hits.reverse.find? (fun h => h.id == k) = hits.find? (fun h => h.id == k) := by
  cases hf : hits.find? (fun h => h.id == k) with
  | none =>
    rw [List.find?_eq_none] at hf ⊢
    intro x hx
    exact hf x (List.mem_reverse.1 hx)
  | some a =>
    have ha := List.mem_of_find?_eq_some hf
    have hpa : (a.id == k) = true := (List.find?_eq_some.1 hf).1
    cases hg : hits.reverse.find? (fun h => h.id == k) with
    | none =>
      rw [List.find?_eq_none] at hg
      exact absurd hpa (hg a (List.mem_reverse.2 ha))
    | some b =>
      have hb := List.mem_reverse.1 (List.mem_of_find?_eq_some hg)
      have hpb : (b.id == k) = true := (List.find?_eq_some.1 hg).1
      have hba : b = a := by
        refine List.inj_on_of_nodup_map hn hb ha ?_
        rw [beq_iff_eq] at hpa hpb
        rw [hpa, hpb]
      rw [hba]

theorem lookupA_combinedScores (prim sec : List QueryHit) (k : Nat)
    (hp : (prim.map QueryHit.id).Nodup) (hs : (sec.map QueryHit.id).Nodup) :
    lookupA (StorageService.combinedScores prim sec) k =
      if (prim.find? (fun h => h.id == k)).isSome ∨ (sec.find? (fun h => h.id == k)).isSome then
        some ⟨chanSimOf prim k, chanSimOf sec k⟩
      else none := by
  unfold StorageService.combinedScores
  rw [lookupA_foldl_upsertSecondary, find?_reverse_of_nodup sec k hs,
    lookupA_foldl_upsertPrimary, find?_reverse_of_nodup prim k hp]
  unfold chanSimOf
  cases hP : prim.find? (fun h => h.id == k) with
  | some hp' =>
    cases hS : sec.find? (fun h => h.id == k) with
    | some hs' => simp
    | none => simp
  | none =>
    cases hS : sec.find? (fun h => h.id == k) with
    | some hs' => simp [lookupA]
    | none => simp [lookupA]

theorem lookupA_eq_of_mem_of_nodup {α : Type} {l : List (Nat × α)}
    (hN : (l.map Prod.fst).Nodup) {k : Nat} {v : α} (h : (k, v) ∈ l) :
    lookupA l k = some v := by
  induction l with
  | nil => cases h
  | cons p r ih =>
    obtain ⟨a, w⟩ := p
    rw [List.map_cons, List.nodup_cons] at hN
    rcases List.mem_cons.1 h with heq | hmem
    · injection heq with h1 h2
      subst h1
      subst h2
      rw [lookupA_cons, if_pos rfl]
    · have hak : a ≠ k := by
        intro hh
        subst hh
        exact hN.1 (List.mem_map.2 ⟨(a, v), hmem, rfl⟩)
      rw [lookupA_cons, if_neg hak]
      exact ih hN.2 hmem

theorem keys_upsertPrimary (l : List (Nat × ChanScores)) (k : Nat) (sim : ℚ) :
    (StorageService.upsertPrimary l k sim).map Prod.fst =
      if k ∈ l.map Prod.fst then l.map Prod.fst else l.map Prod.fst ++ [k] := by
  induction l with
  | nil => simp [StorageService.upsertPrimary]
  | cons p r ih =>
    obtain ⟨a, v⟩ := p
    by_cases hak : a = k
    · subst hak
      simp [StorageService.upsertPrimary]
    · have hka : ¬(k = a) := fun hh => hak hh.symm
      simp only [StorageService.upsertPrimary, if_neg hak, List.map_cons, ih]
      by_cases hk : k ∈ r.map Prod.fst
      · simp [hk, hka]
      · simp [hk, hka]

theorem keys_upsertSecondary (l : List (Nat × ChanScores)) (k : Nat) (sim : ℚ) :
    (StorageService.upsertSecondary l k sim).map Prod.fst =
      if k ∈ l.map Prod.fst then l.map Prod.fst else l.map Prod.fst ++ [k] := by
  induction l with
  | nil => simp [StorageService.upsertSecondary]
  | cons p r ih =>
    obtain ⟨a, v⟩ := p
    by_cases hak : a = k
    · subst hak
      simp [StorageService.upsertSecondary]
    · have hka : ¬(k = a) := fun hh => hak hh.symm
      simp only [StorageService.upsertSecondary, if_neg hak, List.map_cons, ih]
      by_cases hk : k ∈ r.map Prod.fst
      · simp [hk, hka]
      · simp [hk, hka]

theorem nodup_keys_upsert {l : List (Nat × ChanScores)} (h : (l.map Prod.fst).Nodup)
    (k : Nat) (sim : ℚ) :
    ((StorageService.upsertPrimary l k sim).map Prod.fst).Nodup ∧
    ((StorageService.upsertSecondary l k sim).map Prod.fst).Nodup := by
  rw [keys_upsertPrimary, keys_upsertSecondary]
  by_cases hk : k ∈ l.map Prod.fst
  · simp [hk, h]
  · simp only [hk, if_false]
    rw [← List.concat_eq_append]
    exact ⟨List.Nodup.concat hk h, List.Nodup.concat hk h⟩

theorem nodup_keys_combinedScores (prim sec : List QueryHit) :
    ((StorageService.combinedScores prim sec).map Prod.fst).Nodup := by
  unfold StorageService.combinedScores
  have base : ∀ (hits : List QueryHit) (acc : List (Nat × ChanScores)),
      (acc.map Prod.fst).Nodup →
      ((hits.foldl (fun acc h => StorageService.upsertPrimary acc h.id (1 - h.dist)) acc).map
        Prod.fst).Nodup := by
    intro hits
    induction hits with
    | nil => intro acc h; exact h
    | cons x t ih =>
      intro acc h
      exact ih _ ((nodup_keys_upsert h x.id (1 - x.dist)).1)
  have base2 : ∀ (hits : List QueryHit) (acc : List (Nat × ChanScores)),
      (acc.map Prod.fst).Nodup →
      ((hits.foldl (fun acc h => StorageService.upsertSecondary acc h.id (1 - h.dist)) acc).map
        Prod.fst).Nodup := by
    intro hits
    induction hits with
    | nil => intro acc h; exact h
    | cons x t ih =>
      intro acc h
      exact ih _ ((nodup_keys_upsert h x.id (1 - x.dist)).2)
  exact base2 sec _ (base prim [] (by simp))

theorem mem_of_lookupA_eq_some {α : Type} {l : List (Nat × α)} {k : Nat} {v : α}
    (h : lookupA l k = some v) : (k, v) ∈ l := by
  unfold lookupA at h
  cases hf : l.find? (fun p => p.1 == k) with
  | none =>
    rw [hf] at h
    exact absurd h (by simp)
  | some p =>
    rw [hf] at h
    have hp1 : (p.1 == k) = true := (List.find?_eq_some.1 hf).1
    have hm := List.mem_of_find?_eq_some hf
    obtain ⟨a, w⟩ := p
    simp only [Option.map_some'] at h
    rw [beq_iff_eq] at hp1
    cases h
    subst hp1
    exact hm

/-! ## C2 — the combined score -/

/-- C2 (amended): for every search call with distinct ids per channel (as a
k-nearest-neighbour query returns), every entry of `final_scores` carries
the weighted sum `similarity_primary * w_primary + similarity_secondary *
w_secondary` (with `0.0` substituted for a channel whose top-k missed the
id), plus the tag boost exactly when the caller supplied a nonempty tag
filter *and* the id appeared in the primary channel's results (so its
metadata could be found) *and* the filter intersects the record's decoded
tag set; a record appearing only in the secondary channel never receives
the boost.  Conversely every id appearing in either channel's results has an
entry. -/
theorem C2_combined_score (cfg : Settings) (prim sec : List QueryHit)
    (tagsF : Option (List (List Char)))
    (hp : (prim.map QueryHit.id).Nodup) (hs : (sec.map QueryHit.id).Nodup) :
    (∀ e ∈ StorageService.finalScores cfg prim sec tagsF,
       e.2.2 = StorageService.primaryMetaOf prim e.1 ∧
       e.2.1 = chanSimOf prim e.1 * cfg.embedding_weight_primary
             + chanSimOf sec e.1 * cfg.embedding_weight_secondary
             + (if StorageService.tagBoostApplies tagsF (StorageService.primaryMetaOf prim e.1)
                then cfg.tag_boost else 0)) ∧
    (∀ k : Nat,
       ((prim.find? (fun h => h.id == k)).isSome ∨ (sec.find? (fun h => h.id == k)).isSome) →
       ∃ e ∈ StorageService.finalScores cfg prim sec tagsF, e.1 = k) := by
  constructor
  · intro e he
    simp only [StorageService.finalScores] at he
    obtain ⟨⟨k, cs⟩, hmem, rfl⟩ := List.mem_map.1 he
    have hlk : lookupA (StorageService.combinedScores prim sec) k = some cs :=
      lookupA_eq_of_mem_of_nodup (nodup_keys_combinedScores prim sec) hmem
    rw [lookupA_combinedScores prim sec k hp hs] at hlk
    by_cases hcond :
        (prim.find? (fun h => h.id == k)).isSome = true ∨
        (sec.find? (fun h => h.id == k)).isSome = true
    · rw [if_pos hcond] at hlk
      have hcs : cs = ⟨chanSimOf prim k, chanSimOf sec k⟩ := (Option.some.inj hlk).symm
      subst hcs
      refine ⟨rfl, ?_⟩
      show (if StorageService.tagBoostApplies tagsF (StorageService.primaryMetaOf prim k) = true
            then chanSimOf prim k * cfg.embedding_weight_primary
               + chanSimOf sec k * cfg.embedding_weight_secondary + cfg.tag_boost
            else chanSimOf prim k * cfg.embedding_weight_primary
               + chanSimOf sec k * cfg.embedding_weight_secondary) = _
      by_cases hb :
          StorageService.tagBoostApplies tagsF (StorageService.primaryMetaOf prim k) = true
      · rw [if_pos hb, if_pos hb]
      · rw [if_neg hb, if_neg hb, add_zero]
    · rw [if_neg hcond] at hlk
      exact absurd hlk (by simp)
  · intro k hcond
    have hlk : lookupA (StorageService.combinedScores prim sec) k =
        some ⟨chanSimOf prim k, chanSimOf sec k⟩ := by
      rw [lookupA_combinedScores prim sec k hp hs, if_pos hcond]
    have hmem := mem_of_lookupA_eq_some hlk
    simp only [StorageService.finalScores]
    exact ⟨_, List.mem_map.2 ⟨(k, ⟨chanSimOf prim k, chanSimOf sec k⟩), hmem, rfl⟩, rfl⟩

theorem mem_insertDescByScore {x y : ScoreEntry} {l : List ScoreEntry} :
    y ∈ StorageService.insertDescByScore x l ↔ y = x ∨ y ∈ l := by
  induction l with
  | nil => simp [StorageService.insertDescByScore]
  | cons a t ih =>
    simp only [StorageService.insertDescByScore]
    by_cases h : a.2.1 < x.2.1
    · rw [if_pos h]
      simp [List.mem_cons]
    · rw [if_neg h]
      simp only [List.mem_cons, ih]
      tauto

theorem perm_insertDescByScore (x : ScoreEntry) (l : List ScoreEntry) :
    (StorageService.insertDescByScore x l).Perm (x :: l) := by
  induction l with
  | nil => simp [StorageService.insertDescByScore]
  | cons a t ih =>
    simp only [StorageService.insertDescByScore]
    by_cases h : a.2.1 < x.2.1
    · rw [if_pos h]
    · rw [if_neg h]
      exact (ih.cons a).trans (List.Perm.swap x a t)

theorem perm_sortByScoreDesc (l : List ScoreEntry) :
    (StorageService.sortByScoreDesc l).Perm l := by
  have key : ∀ (l acc : List ScoreEntry),
      (l.foldl (fun acc x => StorageService.insertDescByScore x acc) acc).Perm (l ++ acc) := by
    intro l
    induction l with
    | nil => intro acc; simp
    | cons a t ih =>
      intro acc
      rw [List.foldl_cons]
      refine (ih _).trans ?_
      refine (List.Perm.append_left t (perm_insertDescByScore a acc)).trans ?_
      exact List.perm_middle
  simpa using key l []

theorem sorted_insertDescByScore {x : ScoreEntry} {l : List ScoreEntry}
    (h : List.Sorted (fun a b : ScoreEntry => b.2.1 ≤ a.2.1) l) :
    List.Sorted (fun a b : ScoreEntry => b.2.1 ≤ a.2.1)
      (StorageService.insertDescByScore x l) := by
  induction l with
  | nil => simp [StorageService.insertDescByScore]
  | cons a t ih =>
    rw [List.sorted_cons] at h
    obtain ⟨ha, ht⟩ := h
    simp only [StorageService.insertDescByScore]
    by_cases hlt : a.2.1 < x.2.1
    · rw [if_pos hlt, List.sorted_cons]
      constructor
      · intro b hb
        rcases List.mem_cons.1 hb with rfl | hbt
        · exact le_of_lt hlt
        · exact le_trans (ha b hbt) (le_of_lt hlt)
      · rw [List.sorted_cons]
        exact ⟨ha, ht⟩
    · rw [if_neg hlt, List.sorted_cons]
      constructor
      · intro b hb
        rcases mem_insertDescByScore.1 hb with rfl | hbt
        · exact not_lt.mp hlt
        · exact ha b hbt
      · exact ih ht

theorem sorted_sortByScoreDesc (l : List ScoreEntry) :
    List.Sorted (fun a b : ScoreEntry => b.2.1 ≤ a.2.1) (StorageService.sortByScoreDesc l) := by
  have key : ∀ (l acc : List ScoreEntry),
      List.Sorted (fun a b : ScoreEntry => b.2.1 ≤ a.2.1) acc →
      List.Sorted (fun a b : ScoreEntry => b.2.1 ≤ a.2.1)
        (l.foldl (fun acc x => StorageService.insertDescByScore x acc) acc) := by
    intro l
    induction l with
    | nil => intro acc h; exact h
    | cons a t ih =>
      intro acc h
      exact ih _ (sorted_insertDescByScore h)
  exact key l [] (by simp)

/-- The threshold the filter stage actually applies (the `threshold` local
variable of `search`): the configured similarity threshold, or the fallback
threshold when the first filter came back empty and fallback is enabled.
(No caller-supplied threshold parameter exists in the source.) -/
def activeThreshold (cfg : Settings) (final_scores : List ScoreEntry) (use_fallback : Bool) :
    ℚ :=
  if ((StorageService.sortByScoreDesc final_scores).filter
        (fun x => cfg.similarity_threshold ≤ x.2.1)).isEmpty && use_fallback then
    cfg.fallback_threshold
  else cfg.similarity_threshold

theorem survivorScores_eq (cfg : Settings) (l : List ScoreEntry) (limit : Nat) (fb : Bool) :
    StorageService.survivorScores cfg l limit fb =
      ((StorageService.sortByScoreDesc l).filter
        (fun x => activeThreshold cfg l fb ≤ x.2.1)).take limit := by
  by_cases hc : (((StorageService.sortByScoreDesc l).filter
      (fun x => cfg.similarity_threshold ≤ x.2.1)).isEmpty && fb) = true
  · have hT : activeThreshold cfg l fb = cfg.fallback_threshold := by
      unfold activeThreshold
      rw [if_pos hc]
    rw [hT]
    simp only [StorageService.survivorScores]
    rw [if_pos hc]
  · have hT : activeThreshold cfg l fb = cfg.similarity_threshold := by
      unfold activeThreshold
      rw [if_neg hc]
    rw [hT]
    simp only [StorageService.survivorScores]
    rw [if_neg hc]

/-- The survivor list of a search call: sorted, threshold-filtered,
truncated `final_scores`. -/
def survivorsOf (cfg : Settings) (prim sec : List QueryHit)
    (tagsF : Option (List (List Char))) (limit : Nat) (fb : Bool) : List ScoreEntry :=
  StorageService.survivorScores cfg (StorageService.finalScores cfg prim sec tagsF) limit fb

/-! ## C4 — rank, threshold, truncate, decode -/

/-- C4 (amended): the post-scoring pipeline sorts descending by combined
score, discards scores below the threshold actually in force — the
configured default, or the configured fallback when nothing passed and
fallback is enabled; no caller-supplied threshold parameter exists —
truncates the survivors to `limit`, and returns the decoded records, with
the combined score attached as the transient `similarity`, of exactly those
survivors whose id appeared in the primary channel's results; a survivor
whose metadata was not found there (id only in the secondary channel) is
silently dropped rather than returned. -/
theorem C4_pipeline (cfg : Settings) (prim sec : List QueryHit)
    (tagsF : Option (List (List Char))) (limit : Nat) (fb : Bool) :
    StorageService.searchFrom cfg prim sec tagsF limit fb =
      (survivorsOf cfg prim sec tagsF limit fb).filterMap StorageService.decodeSurvivor ∧
    survivorsOf cfg prim sec tagsF limit fb =
      ((StorageService.sortByScoreDesc (StorageService.finalScores cfg prim sec tagsF)).filter
        (fun x =>
          activeThreshold cfg (StorageService.finalScores cfg prim sec tagsF) fb ≤ x.2.1)).take
        limit ∧
    List.Sorted (fun a b : ScoreEntry => b.2.1 ≤ a.2.1)
      (survivorsOf cfg prim sec tagsF limit fb) ∧
    (survivorsOf cfg prim sec tagsF limit fb).length ≤ limit ∧
    (∀ x ∈ survivorsOf cfg prim sec tagsF limit fb,
       activeThreshold cfg (StorageService.finalScores cfg prim sec tagsF) fb ≤ x.2.1) ∧
    (∀ x ∈ survivorsOf cfg prim sec tagsF limit fb, ∀ md, x.2.2 = some md →
       { StorageService.decodeStoredMeta md with similarity := some x.2.1 } ∈
         StorageService.searchFrom cfg prim sec tagsF limit fb) ∧
    (∀ m ∈ StorageService.searchFrom cfg prim sec tagsF limit fb,
       ∃ x ∈ survivorsOf cfg prim sec tagsF limit fb,
         StorageService.decodeSurvivor x = some m ∧ m.similarity = some x.2.1) ∧
    (∀ (k : Nat) (w : ℚ), StorageService.decodeSurvivor (k, w, none) = none) := by
  refine ⟨rfl, survivorScores_eq cfg _ limit fb, ?_, ?_, ?_, ?_, ?_, fun k w => rfl⟩
  · rw [survivorsOf, survivorScores_eq]
    exact List.Pairwise.sublist (List.take_sublist _ _)
      (List.Sorted.filter _ (sorted_sortByScoreDesc _))
  · rw [survivorsOf, survivorScores_eq]
    exact List.length_take_le _ _
  · intro x hx
    rw [survivorsOf, survivorScores_eq] at hx
    have hxf := List.take_subset _ _ hx
    have := List.of_mem_filter hxf
    simpa using this
  · intro x hx md hmd
    refine List.mem_filterMap.2 ⟨x, hx, ?_⟩
    simp [StorageService.decodeSurvivor, hmd]
  · intro m hm
    obtain ⟨x, hx, hdec⟩ := List.mem_filterMap.1 hm
    refine ⟨x, hx, hdec, ?_⟩
    cases hmeta : x.2.2 with
    | none => simp [StorageService.decodeSurvivor, hmeta] at hdec
    | some md =>
      simp only [StorageService.decodeSurvivor, hmeta, Option.map_some'] at hdec
      injection hdec with h
      rw [← h]

/-- C4 witness: the pipeline properties at a concrete search call. -/
theorem C4_pipeline_witness :
    StorageService.searchFrom defaultSettings [] [] none 10 true =
      (survivorsOf defaultSettings [] [] none 10 true).filterMap
        StorageService.decodeSurvivor ∧
    survivorsOf defaultSettings [] [] none 10 true =
      ((StorageService.sortByScoreDesc (StorageService.finalScores defaultSettings [] [] none)).filter
        (fun x =>
          activeThreshold defaultSettings (StorageService.finalScores defaultSettings [] [] none)
            true ≤ x.2.1)).take 10 ∧
    List.Sorted (fun a b : ScoreEntry => b.2.1 ≤ a.2.1)
      (survivorsOf defaultSettings [] [] none 10 true) ∧
    (survivorsOf defaultSettings [] [] none 10 true).length ≤ 10 ∧
    (∀ x ∈ survivorsOf defaultSettings [] [] none 10 true,
       activeThreshold defaultSettings (StorageService.finalScores defaultSettings [] [] none)
         true ≤ x.2.1) ∧
    (∀ x ∈ survivorsOf defaultSettings [] [] none 10 true, ∀ md, x.2.2 = some md →
       { StorageService.decodeStoredMeta md with similarity := some x.2.1 } ∈
         StorageService.searchFrom defaultSettings [] [] none 10 true) ∧
    (∀ m ∈ StorageService.searchFrom defaultSettings [] [] none 10 true,
       ∃ x ∈ survivorsOf defaultSettings [] [] none 10 true,
         StorageService.decodeSurvivor x = some m ∧ m.similarity = some x.2.1) ∧
    (∀ (k : Nat) (w : ℚ), StorageService.decodeSurvivor (k, w, none) = none) :=
  C4_pipeline defaultSettings [] [] none 10 true

/-! ## C3 — threshold fallback -/

/-- C3 (amended): on a search where no candidate's combined score reaches
the configured similarity threshold, disabling fallback returns an empty
result; with fallback enabled, the threshold filter is retried with the
configured (lower) fallback threshold — and the search is non-empty
provided some candidate reaches the fallback threshold, the limit is
positive, and every candidate carries primary-channel metadata (a candidate
returned only by the secondary channel is dropped at decode time even after
the fallback retry). -/
theorem C3_fallback (cfg : Settings) (prim sec : List QueryHit)
    (tagsF : Option (List (List Char))) (limit : Nat)
    (hnone : ∀ x ∈ StorageService.finalScores cfg prim sec tagsF,
      x.2.1 < cfg.similarity_threshold) :
    StorageService.searchFrom cfg prim sec tagsF limit false = [] ∧
    StorageService.survivorScores cfg (StorageService.finalScores cfg prim sec tagsF) limit
        true =
      ((StorageService.sortByScoreDesc (StorageService.finalScores cfg prim sec tagsF)).filter
        (fun x => cfg.fallback_threshold ≤ x.2.1)).take limit ∧
    ((∀ x ∈ StorageService.finalScores cfg prim sec tagsF, x.2.2.isSome = true) → 0 < limit →
     (∃ x ∈ StorageService.finalScores cfg prim sec tagsF, cfg.fallback_threshold ≤ x.2.1) →
     StorageService.searchFrom cfg prim sec tagsF limit true ≠ []) := by
  have hfilter : (StorageService.sortByScoreDesc
      (StorageService.finalScores cfg prim sec tagsF)).filter
      (fun x => cfg.similarity_threshold ≤ x.2.1) = [] := by
    rw [List.filter_eq_nil_iff]
    intro a ha
    have hmem := (perm_sortByScoreDesc _).mem_iff.1 ha
    simp only [decide_eq_true_eq]
    exact not_le.2 (hnone a hmem)
  refine ⟨?_, ?_, ?_⟩
  · show (StorageService.survivorScores cfg _ limit false).filterMap _ = []
    have hs : StorageService.survivorScores cfg
        (StorageService.finalScores cfg prim sec tagsF) limit false = [] := by
      simp only [StorageService.survivorScores]
      rw [hfilter]
      simp
    rw [hs]
    rfl
  · simp only [StorageService.survivorScores]
    rw [hfilter]
    simp
  · intro hall hlim hex
    obtain ⟨x, hxm, hxf⟩ := hex
    have hxs : x ∈ StorageService.sortByScoreDesc
        (StorageService.finalScores cfg prim sec tagsF) :=
      (perm_sortByScoreDesc _).mem_iff.2 hxm
    have hxfil : x ∈ (StorageService.sortByScoreDesc
        (StorageService.finalScores cfg prim sec tagsF)).filter
        (fun x => cfg.fallback_threshold ≤ x.2.1) :=
      List.mem_filter.2 ⟨hxs, by simpa using hxf⟩
    have hsurv : StorageService.survivorScores cfg
        (StorageService.finalScores cfg prim sec tagsF) limit true =
        ((StorageService.sortByScoreDesc
          (StorageService.finalScores cfg prim sec tagsF)).filter
          (fun x => cfg.fallback_threshold ≤ x.2.1)).take limit := by
      simp only [StorageService.survivorScores]
      rw [hfilter]
      simp
    have hne : StorageService.survivorScores cfg
        (StorageService.finalScores cfg prim sec tagsF) limit true ≠ [] := by
      rw [hsurv]
      intro hnil
      rcases List.take_eq_nil_iff.1 hnil with h0 | hfnil
      · exact absurd h0 (Nat.pos_iff_ne_zero.1 hlim)
      · exact List.ne_nil_of_mem hxfil hfnil
    cases hsv : StorageService.survivorScores cfg
        (StorageService.finalScores cfg prim sec tagsF) limit true with
    | nil => exact absurd hsv hne
    | cons y ys =>
      have hy : y ∈ StorageService.survivorScores cfg
          (StorageService.finalScores cfg prim sec tagsF) limit true := by
        rw [hsv]
        exact List.mem_cons_self y ys
      have hyfs : y ∈ StorageService.finalScores cfg prim sec tagsF := by
        rw [hsurv] at hy
        exact (perm_sortByScoreDesc _).mem_iff.1
          (List.mem_of_mem_filter (List.take_subset _ _ hy))
      have hysome := hall y hyfs
      obtain ⟨md, hmd⟩ := Option.isSome_iff_exists.1 hysome
      have : ({ StorageService.decodeStoredMeta md with similarity := some y.2.1 } : Memory) ∈
          StorageService.searchFrom cfg prim sec tagsF limit true := by
        refine List.mem_filterMap.2 ⟨y, hy, ?_⟩
        simp [StorageService.decodeSurvivor, hmd]
      exact List.ne_nil_of_mem this

/-- With no tag filter supplied (`tags=None`, falsy in Python), the boost
test is always false. -/
theorem tagBoostApplies_none (m : Option StoredMeta) :
    StorageService.tagBoostApplies none m = false := by
  cases m <;> rfl

/-- Stored metadata of a record P (id 1) with no tags. -/
def metaP : StoredMeta :=
  { id := 1, type := "note", text := some "t", source := "s",
    tags := serializeTags [], confidence := 1, title := none,
    created_at := 0, updated_at := 0 }

/-- Stored metadata of a record Q (id 2) with no tags. -/
def metaQ : StoredMeta :=
  { id := 2, type := "note", text := some "u", source := "s",
    tags := serializeTags [], confidence := 1, title := none,
    created_at := 0, updated_at := 0 }

/-- Stored metadata of a record T (id 1) carrying the tag `"t"`. -/
def metaT : StoredMeta :=
  { id := 1, type := "note", text := some "t", source := "s",
    tags := serializeTags [['t']], confidence := 1, title := none,
    created_at := 0, updated_at := 0 }

/-- C2 (counterexample to the claim as stated): a record appearing only in
the secondary channel's top-k whose tag set intersects the caller's tag
filter does **not** receive the tag boost: the metadata lookup of lines
301-305 searches only the primary channel's results, finds nothing, and the
boost is skipped.  Here the record's combined score is `1 * 0.6 = 0.6`,
not the `0 * 0.4 + 1 * 0.6 + 0.05` the claim requires. -/
theorem C2_counterexample :
    StorageService.finalScores defaultSettings [] [⟨1, metaT, 0⟩] (some [['t']]) =
      [(1, 3/5, none)] ∧
    parseTags metaT.tags = [['t']] ∧
    (0 * defaultSettings.embedding_weight_primary
      + 1 * defaultSettings.embedding_weight_secondary
      + defaultSettings.tag_boost : ℚ) ≠ 3/5 := by
  have hm1 : StorageService.primaryMetaOf [] 1 = none := rfl
  have hb : StorageService.tagBoostApplies (some [['t']]) none = false := rfl
  refine ⟨?_, by decide, by norm_num [defaultSettings]⟩
  simp only [StorageService.finalScores, StorageService.combinedScores, List.foldl,
    StorageService.upsertSecondary, List.map, defaultSettings, hm1, hb]
  norm_num

/-- C2 witness: the amended combined-score property at a concrete search
call — one record, returned by the primary channel only, at distance `1/2`,
no tag filter; its entry is `(1, 1/5, some metaP)` with
`1/5 = (1 - 1/2) * 0.4 + 0 * 0.6`. -/
theorem C2_combined_score_witness :
    (([⟨1, metaP, 1/2⟩] : List QueryHit).map QueryHit.id).Nodup ∧
    (([] : List QueryHit).map QueryHit.id).Nodup ∧
    ((∀ e ∈ StorageService.finalScores defaultSettings [⟨1, metaP, 1/2⟩] [] none,
       e.2.2 = StorageService.primaryMetaOf [⟨1, metaP, 1/2⟩] e.1 ∧
       e.2.1 = chanSimOf [⟨1, metaP, 1/2⟩] e.1 * defaultSettings.embedding_weight_primary
             + chanSimOf [] e.1 * defaultSettings.embedding_weight_secondary
             + (if StorageService.tagBoostApplies none
                    (StorageService.primaryMetaOf [⟨1, metaP, 1/2⟩] e.1)
                then defaultSettings.tag_boost else 0)) ∧
     (∀ k : Nat,
       ((([⟨1, metaP, 1/2⟩] : List QueryHit).find? (fun h => h.id == k)).isSome ∨
        (([] : List QueryHit).find? (fun h => h.id == k)).isSome) →
       ∃ e ∈ StorageService.finalScores defaultSettings [⟨1, metaP, 1/2⟩] [] none, e.1 = k)) :=
  ⟨by decide, by decide,
    C2_combined_score defaultSettings [⟨1, metaP, 1/2⟩] [] none (by decide) (by decide)⟩

/-- The primary channel's hits in the C3 counterexample: only record P, far
from the query. -/
def primC3 : List QueryHit := [⟨1, metaP, 9/10⟩]

/-- The secondary channel's hits in the C3 counterexample: record P far
away, and record Q at distance 0 — Q is absent from the primary channel's
top-k (the channels diverge once the corpus exceeds the over-fetch
window). -/
def secC3 : List QueryHit := [⟨1, metaP, 9/10⟩, ⟨2, metaQ, 0⟩]

/-- C3 (counterexample to the claim as stated): no candidate reaches the
primary threshold 0.7, record Q's combined score 0.6 reaches the fallback
threshold 0.6, fallback is enabled — yet the search returns the empty list:
Q appeared only in the secondary channel, so after the fallback retry it is
dropped at decode time for lack of primary-channel metadata.  (Disabling
fallback also returns empty, as the claim says.) -/
theorem C3_counterexample :
    StorageService.finalScores defaultSettings primC3 secC3 none =
      [(1, 1/10, some metaP), (2, 3/5, none)] ∧
    (1 : ℚ)/10 < defaultSettings.similarity_threshold ∧
    (3 : ℚ)/5 < defaultSettings.similarity_threshold ∧
    defaultSettings.fallback_threshold ≤ (3 : ℚ)/5 ∧
    StorageService.searchFrom defaultSettings primC3 secC3 none 10 true = [] ∧
    StorageService.searchFrom defaultSettings primC3 secC3 none 10 false = [] := by
  have hm1 : StorageService.primaryMetaOf [⟨1, metaP, 9/10⟩] 1 = some metaP := rfl
  have hm2 : StorageService.primaryMetaOf [⟨1, metaP, 9/10⟩] 2 = none := rfl
  have hfs : StorageService.finalScores defaultSettings primC3 secC3 none =
      [(1, 1/10, some metaP), (2, 3/5, none)] := by
    simp only [primC3, secC3, StorageService.finalScores, StorageService.combinedScores,
      List.foldl, StorageService.upsertPrimary, StorageService.upsertSecondary, List.map,
      defaultSettings, hm1, hm2, tagBoostApplies_none]
    norm_num
  have h1 : ((1 : ℚ)/10 < 3/5) := by norm_num
  have h2 : ¬((7 : ℚ)/10 ≤ 3/5) := by norm_num
  have h3 : ¬((7 : ℚ)/10 ≤ 1/10) := by norm_num
  have h4 : ((3 : ℚ)/5 ≤ 3/5) := by norm_num
  have h5 : ¬((3 : ℚ)/5 ≤ 1/10) := by norm_num
  refine ⟨hfs, by norm_num [defaultSettings], by norm_num [defaultSettings],
    by norm_num [defaultSettings], ?_, ?_⟩
  · show (StorageService.survivorScores defaultSettings
        (StorageService.finalScores defaultSettings primC3 secC3 none) 10 true).filterMap
        StorageService.decodeSurvivor = []
    rw [hfs]
    simp only [StorageService.survivorScores, StorageService.sortByScoreDesc,
      StorageService.insertDescByScore, List.foldl, defaultSettings, eq_true h1, if_true,
      List.filter, decide_eq_true h4, decide_eq_false h2, decide_eq_false h3,
      decide_eq_false h5, List.isEmpty, Bool.and_self, eq_self_iff_true, List.take,
      List.filterMap, StorageService.decodeSurvivor, Option.map_none']
  · show (StorageService.survivorScores defaultSettings
        (StorageService.finalScores defaultSettings primC3 secC3 none) 10 false).filterMap
        StorageService.decodeSurvivor = []
    rw [hfs]
    simp only [StorageService.survivorScores, StorageService.sortByScoreDesc,
      StorageService.insertDescByScore, List.foldl, defaultSettings, eq_true h1, if_true,
      List.filter, decide_eq_true h4, decide_eq_false h2, decide_eq_false h3,
      decide_eq_false h5, List.isEmpty, Bool.and_false, Bool.false_eq_true, if_false,
      List.take, List.filterMap, StorageService.decodeSurvivor, Option.map_none']

/-- The primary channel's hits in the C4 counterexample. -/
def primC4 : List QueryHit := [⟨1, metaP, 7/20⟩]

/-- The secondary channel's hits in the C4 counterexample: record P again,
plus record Q at distance 0, absent from the primary top-k. -/
def secC4 : List QueryHit := [⟨1, metaP, 7/20⟩, ⟨2, metaQ, 0⟩]

/-- C4 (counterexample to the claim as stated): every combined score
(0.65 and 0.6) is below the configured default threshold 0.7 and no
caller-supplied threshold exists, so the claim's pipeline — discard below
the active threshold, truncate, decode every survivor — predicts an empty
result; the code instead retries with the fallback threshold, keeps both
candidates as survivors, and then returns only **one** decoded record: the
surviving candidate with id 2, present only in the secondary channel, is
silently dropped, so not every surviving candidate is returned. -/
theorem C4_counterexample :
    StorageService.finalScores defaultSettings primC4 secC4 none =
      [(1, 13/20, some metaP), (2, 3/5, none)] ∧
    (13 : ℚ)/20 < defaultSettings.similarity_threshold ∧
    (3 : ℚ)/5 < defaultSettings.similarity_threshold ∧
    StorageService.survivorScores defaultSettings
      (StorageService.finalScores defaultSettings primC4 secC4 none) 10 true =
      [(1, 13/20, some metaP), (2, 3/5, none)] ∧
    StorageService.searchFrom defaultSettings primC4 secC4 none 10 true =
      [{ StorageService.decodeStoredMeta metaP with similarity := some (13/20) }] := by
  have hm1 : StorageService.primaryMetaOf [⟨1, metaP, 7/20⟩] 1 = some metaP := rfl
  have hm2 : StorageService.primaryMetaOf [⟨1, metaP, 7/20⟩] 2 = none := rfl
  have hfs : StorageService.finalScores defaultSettings primC4 secC4 none =
      [(1, 13/20, some metaP), (2, 3/5, none)] := by
    simp only [primC4, secC4, StorageService.finalScores, StorageService.combinedScores,
      List.foldl, StorageService.upsertPrimary, StorageService.upsertSecondary, List.map,
      defaultSettings, hm1, hm2, tagBoostApplies_none]
    norm_num
  have hlt : ¬((13 : ℚ)/20 < 3/5) := by norm_num
  have hp1 : ¬((7 : ℚ)/10 ≤ 13/20) := by norm_num
  have hp2 : ¬((7 : ℚ)/10 ≤ 3/5) := by norm_num
  have hf1 : ((3 : ℚ)/5 ≤ 13/20) := by norm_num
  have hf2 : ((3 : ℚ)/5 ≤ 3/5) := by norm_num
  have hsurv : StorageService.survivorScores defaultSettings
      (StorageService.finalScores defaultSettings primC4 secC4 none) 10 true =
      [(1, 13/20, some metaP), (2, 3/5, none)] := by
    rw [hfs]
    simp only [StorageService.survivorScores, StorageService.sortByScoreDesc,
      StorageService.insertDescByScore, List.foldl, defaultSettings, eq_false hlt, if_false,
      List.filter, decide_eq_false hp1, decide_eq_false hp2, decide_eq_true hf1,
      decide_eq_true hf2, List.isEmpty, Bool.and_self, eq_self_iff_true, if_true, List.take]
  have hd1 : StorageService.decodeSurvivor (1, 13/20, some metaP) =
      some { StorageService.decodeStoredMeta metaP with similarity := some (13/20) } := rfl
  have hd2 : StorageService.decodeSurvivor (2, 3/5, none) = none := rfl
  refine ⟨hfs, by norm_num [defaultSettings], by norm_num [defaultSettings], hsurv, ?_⟩
  show (StorageService.survivorScores defaultSettings
      (StorageService.finalScores defaultSettings primC4 secC4 none) 10 true).filterMap
      StorageService.decodeSurvivor =
    [{ StorageService.decodeStoredMeta metaP with similarity := some (13/20) }]
  rw [hsurv]
  simp only [List.filterMap_cons, List.filterMap_nil, hd1, hd2]

/-- C3 witness: the fallback behaviour at a concrete search call where the
single candidate scores 0.65 — below the 0.7 threshold, above the 0.6
fallback. -/
theorem C3_fallback_witness :
    (∀ x ∈ StorageService.finalScores defaultSettings [⟨1, metaP, 7/20⟩] [⟨1, metaP, 7/20⟩]
        none, x.2.1 < defaultSettings.similarity_threshold) ∧
    (StorageService.searchFrom defaultSettings [⟨1, metaP, 7/20⟩] [⟨1, metaP, 7/20⟩] none 10
        false = [] ∧
     StorageService.survivorScores defaultSettings
        (StorageService.finalScores defaultSettings [⟨1, metaP, 7/20⟩] [⟨1, metaP, 7/20⟩]
          none) 10 true =
       ((StorageService.sortByScoreDesc
          (StorageService.finalScores defaultSettings [⟨1, metaP, 7/20⟩] [⟨1, metaP, 7/20⟩]
            none)).filter
          (fun x => defaultSettings.fallback_threshold ≤ x.2.1)).take 10 ∧
     ((∀ x ∈ StorageService.finalScores defaultSettings [⟨1, metaP, 7/20⟩]
          [⟨1, metaP, 7/20⟩] none, x.2.2.isSome = true) → 0 < 10 →
      (∃ x ∈ StorageService.finalScores defaultSettings [⟨1, metaP, 7/20⟩]
          [⟨1, metaP, 7/20⟩] none, defaultSettings.fallback_threshold ≤ x.2.1) →
      StorageService.searchFrom defaultSettings [⟨1, metaP, 7/20⟩] [⟨1, metaP, 7/20⟩] none 10
        true ≠ [])) := by
  have hm1 : StorageService.primaryMetaOf [⟨1, metaP, 7/20⟩] 1 = some metaP := rfl
  have hfs : StorageService.finalScores defaultSettings [⟨1, metaP, 7/20⟩]
      [⟨1, metaP, 7/20⟩] none = [(1, 13/20, some metaP)] := by
    simp only [StorageService.finalScores, StorageService.combinedScores, List.foldl,
      StorageService.upsertPrimary, StorageService.upsertSecondary, List.map,
      defaultSettings, hm1, tagBoostApplies_none]
    norm_num
  have hnone : ∀ x ∈ StorageService.finalScores defaultSettings [⟨1, metaP, 7/20⟩]
      [⟨1, metaP, 7/20⟩] none, x.2.1 < defaultSettings.similarity_threshold := by
    rw [hfs]
    intro x hx
    rw [List.mem_singleton] at hx
    subst hx
    norm_num [defaultSettings]
  exact ⟨hnone,
    C3_fallback defaultSettings [⟨1, metaP, 7/20⟩] [⟨1, metaP, 7/20⟩] none 10 hnone⟩
